import Mathlib

/-!
Shallow embedding of the `ProtocolAdapter` mock transport from
`pymeasure/adapters/protocol.py`, together with its byte normalizer
`to_bytes`.

Bytes are modelled as `List Nat` (each element a byte value 0..255);
text is modelled as a list of Unicode codepoints.  Python exceptions
leave the object mutated, so every operation returns
`Except (Err × State) ...`: an error carries the state of the adapter
at the moment the exception was raised.
-/

namespace Protocol

/-- ASCII decimal digits (most significant first) of a natural number. -/
def natDigits (n : Nat) : List Nat :=
  if h : n < 10 then [48 + n]
  else natDigits (n / 10) ++ [48 + n % 10]
termination_by n
decreasing_by exact Nat.div_lt_self (by omega) (by omega)

/-- Decimal text of a Python integer (`str(n)`), as ASCII codepoints. -/
def intRepr (n : Int) : List Nat :=
  if n < 0 then 45 :: natDigits (-n).toNat else natDigits n.toNat

/-- UTF-8 encoding of a single Unicode codepoint. -/
def utf8EncodeChar (c : Nat) : List Nat :=
  if c < 128 then [c]
  else if c < 2048 then [192 + c / 64, 128 + c % 64]
  else if c < 65536 then [224 + c / 4096, 128 + c / 64 % 64, 128 + c % 64]
  else [240 + c / 262144, 128 + c / 4096 % 64, 128 + c / 64 % 64, 128 + c % 64]

/-- UTF-8 encoding of a codepoint sequence (Python `s.encode("utf-8")`). -/
def utf8Encode (cps : List Nat) : List Nat := (cps.map utf8EncodeChar).flatten

/-- One-byte-at-a-time strict UTF-8 decoder.  `need` counts the
continuation bytes still expected for the current multi-byte sequence,
`cp` is the codepoint accumulated so far, and `lo`/`hi` bound the next
continuation byte (the first continuation byte of a sequence is
restricted so that overlong encodings, surrogate codepoints and
codepoints above U+10FFFF are rejected, as Python's strict decoder
does). -/
def utf8DecodeGo (need cp lo hi : Nat) : List Nat → Option (List Nat)
  | [] => if need = 0 then some [] else none
  | b :: rest =>
    if need = 0 then
      if b ≤ 127 then (utf8DecodeGo 0 0 0 0 rest).map (fun t => b :: t)
      else if 194 ≤ b && b ≤ 223 then utf8DecodeGo 1 (b - 192) 128 191 rest
      else if b = 224 then utf8DecodeGo 2 0 160 191 rest
      else if 225 ≤ b && b ≤ 236 then utf8DecodeGo 2 (b - 224) 128 191 rest
      else if b = 237 then utf8DecodeGo 2 13 128 159 rest
      else if 238 ≤ b && b ≤ 239 then utf8DecodeGo 2 (b - 224) 128 191 rest
      else if b = 240 then utf8DecodeGo 3 0 144 191 rest
      else if 241 ≤ b && b ≤ 243 then utf8DecodeGo 3 (b - 240) 128 191 rest
      else if b = 244 then utf8DecodeGo 3 4 128 143 rest
      else none
    else
      if lo ≤ b && b ≤ hi then
        if need = 1 then
          (utf8DecodeGo 0 0 0 0 rest).map (fun t => (cp * 64 + (b - 128)) :: t)
        else utf8DecodeGo (need - 1) (cp * 64 + (b - 128)) 128 191 rest
      else none

/-- Strict UTF-8 decoding (Python `bs.decode("utf-8")`): rejects overlong
encodings, surrogate codepoints, codepoints above U+10FFFF, truncated
sequences and stray continuation bytes.  Returns the decoded codepoints. -/
def utf8Decode (l : List Nat) : Option (List Nat) := utf8DecodeGo 0 0 0 0 l

/-- Python-side values fed to `to_bytes` and stored in `comm_pairs`.
`bytes` covers `bytes`/`bytearray`; `str` carries the text's codepoints;
`intList` covers `list`/`tuple` of integers; `float` carries the decimal
text representation `str(x)` of the float (binary floating point itself is
outside the embedding); `other` carries the name of an unsupported type. -/
inductive PyVal where
  | bytes : List Nat → PyVal
  | none : PyVal
  | str : List Nat → PyVal
  | intList : List Int → PyVal
  | int : Int → PyVal
  | float : List Nat → PyVal
  | other : String → PyVal
deriving DecidableEq

/-- Failure modes of the adapter, mirroring the exceptions of the source:
`TypeError` from `to_bytes` (carrying the offending type name), `ValueError`
from `bytes(list)` on out-of-range elements, `IndexError` from
`comm_pairs[index]`, the three `assert`s, and `UnicodeDecodeError`.
`writeMismatch` carries the accumulated written bytes and the raw expected
message of the current step, as in the assertion message of `write`. -/
inductive Err where
  | invalidInputType : String → Err
  | valueError : Err
  | sequenceExhausted : Err
  | writeMismatch : List Nat → Option PyVal → Err
  | unreadResponsePending : List Nat → Err
  | unexpectedRead : Err
  | decodingError : Err
deriving DecidableEq

/-- `to_bytes(command)`: normalize a command to bytes.
`bytes`/`bytearray` are returned unchanged; `None` gives `b""`; text is
UTF-8 encoded; a list or tuple of integers becomes one byte per integer
(`bytes(command)`, failing like Python's `ValueError` when an element is
out of byte range); an `int` or `float` becomes `str(command)` UTF-8
encoded; anything else raises `TypeError` naming the type. -/
def to_bytes : PyVal → Except Err (List Nat)
  | .bytes bs => .ok bs
  | .none => .ok []
  | .str s => .ok (utf8Encode s)
  | .intList xs =>
    if ∀ x ∈ xs, 0 ≤ x ∧ x < 256 then .ok (xs.map Int.toNat)
    else .error .valueError
  | .int n => .ok (utf8Encode (intRepr n))
  | .float r => .ok (utf8Encode r)
  | .other ty => .error (.invalidInputType ty)

/-- The mutable state of a `ProtocolAdapter`: the exchange list
`comm_pairs`, the two byte buffers and the cursor `_index`. -/
structure State where
  comm_pairs : List (PyVal × PyVal)
  read_buffer : List Nat
  write_buffer : List Nat
  index : Nat
deriving DecidableEq

/-- Python slice `b[:count]` for an arbitrary (possibly negative) count. -/
def pySliceTo (b : List Nat) (count : Int) : List Nat :=
  if 0 ≤ count then b.take count.toNat
  else b.take (b.length - (-count).toNat)

/-- Python slice `b[count:]` for an arbitrary (possibly negative) count. -/
def pySliceFrom (b : List Nat) (count : Int) : List Nat :=
  if 0 ≤ count then b.drop count.toNat
  else b.drop (b.length - (-count).toNat)

/-- Body of `write_bytes` after the initial
`self._write_buffer += content` mutation: look up the current pair
(raising `IndexError` when exhausted), and on an exact match of the
accumulated buffer against the normalized expected write, check the
unread-response guard, clear the write buffer, load the canned read and
advance the cursor. -/
def write_bytes_rest (st1 : State) : Except (Err × State) State :=
  match st1.comm_pairs[st1.index]? with
  | Option.none => .error (.sequenceExhausted, st1)
  | Option.some (p_write, p_read) =>
    match to_bytes p_write with
    | .error e => .error (e, st1)
    | .ok expected =>
      if st1.write_buffer = expected then
        if st1.read_buffer = [] then
          match to_bytes p_read with
          | .error e => .error (e, { st1 with write_buffer := [] })
          | .ok rb =>
            .ok { st1 with write_buffer := [], read_buffer := rb,
                           index := st1.index + 1 }
        else .error (.unreadResponsePending st1.read_buffer, st1)
      else .ok st1

/-- `write_bytes(content)`: append `content` to the write buffer, then
process a possible match.  An error carries the mutated state, as the
Python exception leaves `self` mutated. -/
def write_bytes (st : State) (content : List Nat) : Except (Err × State) State :=
  write_bytes_rest { st with write_buffer := st.write_buffer ++ content }

/-- `write(command)`: normalize the command, call `write_bytes`, then
assert that the write buffer is empty, reporting the accumulated bytes and
the expected message of the current step otherwise. -/
def write (st : State) (command : PyVal) : Except (Err × State) State :=
  match to_bytes command with
  | .error e => .error (e, st)
  | .ok bs =>
    match write_bytes st bs with
    | .error es => .error es
    | .ok st1 =>
      if st1.write_buffer = [] then .ok st1
      else .error (.writeMismatch st1.write_buffer
        ((st1.comm_pairs[st1.index]?).map Prod.fst), st1)

/-- `read_bytes(count)`: if the read buffer is non-empty, return
`buffer[:count]` and keep `buffer[count:]`; otherwise look up the current
pair (raising `IndexError` when exhausted), require its write side to be
`None`, load the normalized canned read sliced the same way, and advance
the cursor. -/
def read_bytes (st : State) (count : Int) :
    Except (Err × State) (List Nat × State) :=
  if st.read_buffer = [] then
    match st.comm_pairs[st.index]? with
    | Option.none => .error (.sequenceExhausted, st)
    | Option.some (p_write, p_read) =>
      if p_write = PyVal.none then
        match to_bytes p_read with
        | .error e => .error (e, st)
        | .ok rb =>
          .ok (pySliceTo rb count,
            { st with read_buffer := pySliceFrom rb count,
                      index := st.index + 1 })
      else .error (.unexpectedRead, st)
  else
    .ok (pySliceTo st.read_buffer count,
      { st with read_buffer := pySliceFrom st.read_buffer count })

/-- `read()`: `(self.read_bytes(-1) + self.read_bytes(1)).decode("utf-8")`,
evaluated left to right on the mutating state. -/
def read (st : State) : Except (Err × State) (List Nat × State) :=
  match read_bytes st (-1) with
  | .error es => .error es
  | .ok (b1, st1) =>
    match read_bytes st1 1 with
    | .error es => .error es
    | .ok (b2, st2) =>
      match utf8Decode (b1 ++ b2) with
      | Option.none => .error (.decodingError, st2)
      | Option.some s => .ok (s, st2)

/-- Boolean list-inclusion-at-the-front test on byte lists. -/
def pfx : List Nat → List Nat → Bool
  | [], _ => true
  | _ :: _, [] => false
  | a :: l1, b :: l2 => a == b && pfx l1 l2

theorem pfx_self (l : List Nat) : pfx l l = true := by
  induction l with
  | nil => rfl
  | cons a l ih => simp [pfx, ih]

theorem to_bytes_error_shape (v : PyVal) (e : Err) (h : to_bytes v = Except.error e) :
    e = Err.valueError ∨ ∃ ty, e = Err.invalidInputType ty := by
  cases v with
  | bytes bs => simp [to_bytes] at h
  | none => simp [to_bytes] at h
  | str s => simp [to_bytes] at h
  | intList xs =>
    simp only [to_bytes] at h
    split at h
    · simp at h
    · simp only [Except.error.injEq] at h
      exact Or.inl h.symm
  | int n => simp [to_bytes] at h
  | float r => simp [to_bytes] at h
  | other ty =>
    simp only [to_bytes, Except.error.injEq] at h
    exact Or.inr ⟨ty, h.symm⟩

/-- C8: the byte normalizer maps each recognized input shape as specified —
bytes unchanged, the absent marker to the empty byte sequence, text to its
UTF-8 encoding, a sequence of byte-range integers to one byte per integer,
and a numeric scalar (integer or floating point) to the UTF-8 encoding of
its decimal text representation — and fails with an InvalidInputType error
naming the offending type on any other shape. -/
theorem c8_to_bytes_shapes :
    (∀ bs, to_bytes (PyVal.bytes bs) = .ok bs) ∧
    to_bytes PyVal.none = .ok [] ∧
    (∀ s, to_bytes (PyVal.str s) = .ok (utf8Encode s)) ∧
    (∀ xs, (∀ x ∈ xs, 0 ≤ x ∧ x < 256) →
      to_bytes (PyVal.intList xs) = .ok (xs.map Int.toNat) ∧
      (xs.map Int.toNat).length = xs.length) ∧
    (∀ n, to_bytes (PyVal.int n) = .ok (utf8Encode (intRepr n))) ∧
    (∀ r, to_bytes (PyVal.float r) = .ok (utf8Encode r)) ∧
    (∀ ty, to_bytes (PyVal.other ty) = .error (.invalidInputType ty)) := by
  refine ⟨fun bs => rfl, rfl, fun s => rfl, fun xs hxs => ?_, fun n => rfl,
    fun r => rfl, fun ty => rfl⟩
  refine ⟨?_, List.length_map _ _⟩
  simp only [to_bytes]
  rw [if_pos hxs]

/-- C8 witness: the shape rules evaluated at concrete inputs. -/
theorem c8_witness : to_bytes (PyVal.intList [72, 105]) = .ok [72, 105] := by
  have h := (c8_to_bytes_shapes.2.2.2.1 [72, 105] (by decide)).1
  simpa using h

/-- C9: the normalizer is idempotent — whenever `to_bytes x` succeeds with
bytes `bs`, normalizing the already-canonical bytes `bs` again gives the
same result, because a byte sequence is returned unchanged. -/
theorem c9_idempotent (x : PyVal) (bs : List Nat) (h : to_bytes x = .ok bs) :
    to_bytes (PyVal.bytes bs) = to_bytes x := by
  rw [h]
  rfl

/-- C9 witness: idempotence at the concrete text input "hi". -/
theorem c9_witness :
    to_bytes (PyVal.bytes (utf8Encode [104, 105])) = to_bytes (PyVal.str [104, 105]) :=
  c9_idempotent (PyVal.str [104, 105]) (utf8Encode [104, 105]) rfl

/-- C1 counterexample: with count = -1 (negative), a non-empty pendingRead
of `b"AB"` yields only `b"A"` and leaves `b"B"` buffered (Python slicing
`buf[:-1]` / `buf[-1:]`), not the whole buffer; likewise the on-demand load
of `b"42"` returns only `b"4"`, not the entire normalized canned read. -/
theorem c1_counterexample :
    read_bytes ⟨[], [65, 66], [], 0⟩ (-1) = .ok ([65], ⟨[], [66], [], 0⟩) ∧
    read_bytes ⟨[(PyVal.none, PyVal.bytes [52, 50])], [], [], 0⟩ (-1)
      = .ok ([52], ⟨[(PyVal.none, PyVal.bytes [52, 50])], [50], [], 1⟩) ∧
    ([65] : List Nat) ≠ [65, 66] ∧ ([66] : List Nat) ≠ [] ∧
    ([52] : List Nat) ≠ [52, 50] ∧ ([50] : List Nat) ≠ [] :=
  ⟨rfl, rfl, by decide, by decide, by decide, by decide⟩

/-- C1 (amended): readBytes with a negative count returns all buffered
bytes except the last |count| of them, which stay in pendingRead (Python
slicing); on an empty pendingRead whose current step has no expected
write, the on-demand load is triggered and the normalized canned read is
split the same way: all but the last |count| bytes are returned and the
last min(|count|, length) bytes are stored in pendingRead. -/
theorem c1_amended (st : State) (count : Int) (hc : count < 0) :
    (st.read_buffer ≠ [] →
      read_bytes st count = .ok
        (st.read_buffer.take (st.read_buffer.length - (-count).toNat),
         { st with read_buffer :=
            st.read_buffer.drop (st.read_buffer.length - (-count).toNat) })) ∧
    (∀ p_read rb, st.read_buffer = [] →
      st.comm_pairs[st.index]? = some (PyVal.none, p_read) →
      to_bytes p_read = .ok rb →
      read_bytes st count = .ok
        (rb.take (rb.length - (-count).toNat),
         { st with read_buffer := rb.drop (rb.length - (-count).toNat),
                   index := st.index + 1 })) := by
  have hc' : ¬ 0 ≤ count := by omega
  constructor
  · intro hbuf
    simp [read_bytes, hbuf, pySliceTo, pySliceFrom, hc']
  · intro p_read rb hbuf hstep hto
    simp [read_bytes, hbuf, hstep, hto, pySliceTo, pySliceFrom, hc']

/-- C1 witness: the amended behavior at count = -2 on buffer `b"ABC"`. -/
theorem c1_witness :
    read_bytes ⟨[], [65, 66, 67], [], 0⟩ (-2) = .ok ([65], ⟨[], [66, 67], [], 0⟩) := by
  have h := (c1_amended ⟨[], [65, 66, 67], [], 0⟩ (-2) (by decide)).1 (by decide)
  simpa using h

/-- C2 counterexample: with the single step `(b"CMD", None)`, the call
`writeBytes(b"XYZ")` returns successfully even though the accumulated
pendingWrite `b"XYZ"` is not a prefix of the expected write `b"CMD"` —
writeBytes itself never fails with WriteMismatch. -/
theorem c2_counterexample :
    write_bytes ⟨[(PyVal.bytes [67, 77, 68], PyVal.none)], [], [], 0⟩ [88, 89, 90]
      = .ok ⟨[(PyVal.bytes [67, 77, 68], PyVal.none)], [], [88, 89, 90], 0⟩ ∧
    pfx [88, 89, 90] [67, 77, 68] = false :=
  ⟨rfl, rfl⟩

/-- C2 (amended): when the accumulated pendingWrite after appending is not
a prefix of the normalized expected write, the writeBytes call itself
succeeds, merely leaving the bytes accumulated; the mismatch is reported
by `write`, which fails with WriteMismatch carrying the actual accumulated
bytes and the expected write whenever its writeBytes call leaves
pendingWrite non-empty — in particular, with the single step
`(b"CMD", None)`, `write("XYZ")` fails with WriteMismatch reporting
`b"XYZ"` and `b"CMD"`. -/
theorem c2_amended :
    (∀ st content p_write p_read expected,
      st.comm_pairs[st.index]? = some (p_write, p_read) →
      to_bytes p_write = .ok expected →
      pfx (st.write_buffer ++ content) expected = false →
      write_bytes st content = .ok { st with write_buffer := st.write_buffer ++ content }) ∧
    write ⟨[(PyVal.bytes [67, 77, 68], PyVal.none)], [], [], 0⟩ (PyVal.str [88, 89, 90])
      = .error (.writeMismatch [88, 89, 90] (some (PyVal.bytes [67, 77, 68])),
        ⟨[(PyVal.bytes [67, 77, 68], PyVal.none)], [], [88, 89, 90], 0⟩) := by
  constructor
  · intro st content p_write p_read expected hstep hex hnp
    have hne : ¬ st.write_buffer ++ content = expected := by
      intro he
      rw [he, pfx_self] at hnp
      exact Bool.noConfusion hnp
    simp [write_bytes, write_bytes_rest, hstep, hex, hne]
  · rfl

/-- C2 witness: the amended claim at a concrete mismatching first byte. -/
theorem c2_witness :
    write_bytes ⟨[(PyVal.bytes [67, 77, 68], PyVal.none)], [], [], 0⟩ [88]
      = .ok ⟨[(PyVal.bytes [67, 77, 68], PyVal.none)], [], [88], 0⟩ := by
  have h := c2_amended.1 ⟨[(PyVal.bytes [67, 77, 68], PyVal.none)], [], [], 0⟩ [88]
    (PyVal.bytes [67, 77, 68]) PyVal.none [67, 77, 68] rfl rfl (by decide)
  simpa using h

/-- C3: when a writeBytes call makes the accumulated pendingWrite exactly
equal the normalized expected write of the current step, the call fails
with UnreadResponsePending if pendingRead is non-empty; otherwise
pendingWrite is reset to empty, pendingRead is loaded with the normalized
canned read of the step, and the cursor advances by exactly 1. -/
theorem c3_match_completion (st : State) (content : List Nat)
    (p_write p_read : PyVal) (expected : List Nat)
    (hstep : st.comm_pairs[st.index]? = some (p_write, p_read))
    (hex : to_bytes p_write = .ok expected)
    (heq : st.write_buffer ++ content = expected) :
    (st.read_buffer ≠ [] →
      write_bytes st content = .error (.unreadResponsePending st.read_buffer,
        { st with write_buffer := expected })) ∧
    (∀ rb, st.read_buffer = [] → to_bytes p_read = .ok rb →
      write_bytes st content = .ok
        { st with write_buffer := [], read_buffer := rb,
                  index := st.index + 1 }) := by
  constructor
  · intro hrb
    simp [write_bytes, write_bytes_rest, hstep, hex, heq, hrb]
  · intro rb hrb hto
    simp [write_bytes, write_bytes_rest, hstep, hex, heq, hrb, hto]

/-- C3 witness: the unread-pending guard of the spec — with steps
`[(b"A", b"1"), (b"B", b"2")]`, writing `b"B"` while `b"1"` is still
buffered fails with UnreadResponsePending. -/
theorem c3_witness :
    write_bytes ⟨[(PyVal.bytes [65], PyVal.bytes [49]),
      (PyVal.bytes [66], PyVal.bytes [50])], [49], [], 1⟩ [66]
      = .error (.unreadResponsePending [49],
        ⟨[(PyVal.bytes [65], PyVal.bytes [49]),
          (PyVal.bytes [66], PyVal.bytes [50])], [49], [66], 1⟩) := by
  have h := (c3_match_completion
    ⟨[(PyVal.bytes [65], PyVal.bytes [49]), (PyVal.bytes [66], PyVal.bytes [50])],
      [49], [], 1⟩
    [66] (PyVal.bytes [66]) (PyVal.bytes [50]) [66] rfl rfl rfl).1 (by decide)
  simpa using h

/-- C4: readBytes(count) with pendingRead empty and count ≥ 0 fails with
SequenceExhausted when the cursor is beyond the exchange sequence, fails
with UnexpectedRead when the current step's expected write is not the
absent marker, and otherwise normalizes the step's canned read, advances
the cursor by 1, returns its first count bytes and stores the remainder in
pendingRead; in particular, with `(b"CMD", b"X")` as the only step,
calling read() before any write fails with UnexpectedRead. -/
theorem c4_read_on_empty (st : State) (count : Int)
    (hbuf : st.read_buffer = []) (hc : 0 ≤ count) :
    (st.comm_pairs[st.index]? = none →
      read_bytes st count = .error (.sequenceExhausted, st)) ∧
    (∀ p_write p_read, st.comm_pairs[st.index]? = some (p_write, p_read) →
      p_write ≠ PyVal.none → read_bytes st count = .error (.unexpectedRead, st)) ∧
    (∀ p_read rb, st.comm_pairs[st.index]? = some (PyVal.none, p_read) →
      to_bytes p_read = .ok rb →
      read_bytes st count = .ok (rb.take count.toNat,
        { st with read_buffer := rb.drop count.toNat, index := st.index + 1 })) ∧
    read ⟨[(PyVal.bytes [67, 77, 68], PyVal.bytes [88])], [], [], 0⟩
      = .error (.unexpectedRead,
        ⟨[(PyVal.bytes [67, 77, 68], PyVal.bytes [88])], [], [], 0⟩) := by
  refine ⟨?_, ?_, ?_, rfl⟩
  · intro hnone
    simp [read_bytes, hbuf, hnone]
  · intro p_write p_read hstep hpw
    simp [read_bytes, hbuf, hstep, hpw]
  · intro p_read rb hstep hto
    simp [read_bytes, hbuf, hstep, hto, pySliceTo, pySliceFrom, hc]

/-- C4 witness: an empty exchange list makes a read fail with
SequenceExhausted. -/
theorem c4_witness :
    read_bytes ⟨[], [], [], 0⟩ 1 = .error (.sequenceExhausted, ⟨[], [], [], 0⟩) :=
  (c4_read_on_empty ⟨[], [], [], 0⟩ 1 rfl (by decide)).1 rfl

/-- C5: write(command) normalizes the command, performs writeBytes with
the normalized bytes, and then fails (reporting the leftover bytes and the
expected write) exactly when pendingWrite is non-empty after that call; in
particular, with step `(b"CMD", b"OK")`, `write("CM")` alone fails while
`writeBytes(b"CM")` followed by `writeBytes(b"D")` succeeds and exposes
`b"OK"` via read(). -/
theorem c5_write (st : State) (command : PyVal) (bs : List Nat) (st1 : State)
    (hcmd : to_bytes command = .ok bs) (hwb : write_bytes st bs = .ok st1) :
    (st1.write_buffer = [] → write st command = .ok st1) ∧
    (st1.write_buffer ≠ [] →
      write st command = .error (.writeMismatch st1.write_buffer
        ((st1.comm_pairs[st1.index]?).map Prod.fst), st1)) ∧
    write ⟨[(PyVal.bytes [67, 77, 68], PyVal.bytes [79, 75])], [], [], 0⟩
        (PyVal.str [67, 77])
      = .error (.writeMismatch [67, 77] (some (PyVal.bytes [67, 77, 68])),
        ⟨[(PyVal.bytes [67, 77, 68], PyVal.bytes [79, 75])], [], [67, 77], 0⟩) ∧
    write_bytes ⟨[(PyVal.bytes [67, 77, 68], PyVal.bytes [79, 75])], [], [], 0⟩
        [67, 77]
      = .ok ⟨[(PyVal.bytes [67, 77, 68], PyVal.bytes [79, 75])], [], [67, 77], 0⟩ ∧
    write_bytes ⟨[(PyVal.bytes [67, 77, 68], PyVal.bytes [79, 75])], [], [67, 77], 0⟩
        [68]
      = .ok ⟨[(PyVal.bytes [67, 77, 68], PyVal.bytes [79, 75])], [79, 75], [], 1⟩ ∧
    read ⟨[(PyVal.bytes [67, 77, 68], PyVal.bytes [79, 75])], [79, 75], [], 1⟩
      = .ok ([79, 75],
        ⟨[(PyVal.bytes [67, 77, 68], PyVal.bytes [79, 75])], [], [], 1⟩) := by
  refine ⟨?_, ?_, rfl, rfl, rfl, rfl⟩
  · intro h1
    simp [write, hcmd, hwb, h1]
  · intro h1
    simp [write, hcmd, hwb, h1]

/-- C5 witness: write(b"CMD") in one piece succeeds against step
`(b"CMD", b"OK")`. -/
theorem c5_witness :
    write ⟨[(PyVal.bytes [67, 77, 68], PyVal.bytes [79, 75])], [], [], 0⟩
        (PyVal.str [67, 77, 68])
      = .ok ⟨[(PyVal.bytes [67, 77, 68], PyVal.bytes [79, 75])], [79, 75], [], 1⟩ :=
  (c5_write ⟨[(PyVal.bytes [67, 77, 68], PyVal.bytes [79, 75])], [], [], 0⟩
    (PyVal.str [67, 77, 68]) [67, 77, 68]
    ⟨[(PyVal.bytes [67, 77, 68], PyVal.bytes [79, 75])], [79, 75], [], 1⟩
    rfl rfl).1 rfl

/-- C6: read() returns the UTF-8 decoding of the concatenation of the
result of readBytes(-1) followed by the result of readBytes(1), and fails
with a decoding error when the concatenated bytes are not valid UTF-8; in
particular, for the single-step sequence `[(b"CMD", b"42")]`, after
write("CMD") succeeds, read() returns "42", and a further read() fails
with SequenceExhausted. -/
theorem c6_read (st : State) :
    (∀ s st2, read st = .ok (s, st2) ↔
      ∃ b1 st1 b2, read_bytes st (-1) = .ok (b1, st1) ∧
        read_bytes st1 1 = .ok (b2, st2) ∧ utf8Decode (b1 ++ b2) = some s) ∧
    (∀ b1 st1 b2 st2, read_bytes st (-1) = .ok (b1, st1) →
      read_bytes st1 1 = .ok (b2, st2) → utf8Decode (b1 ++ b2) = none →
      read st = .error (.decodingError, st2)) ∧
    write ⟨[(PyVal.bytes [67, 77, 68], PyVal.bytes [52, 50])], [], [], 0⟩
        (PyVal.str [67, 77, 68])
      = .ok ⟨[(PyVal.bytes [67, 77, 68], PyVal.bytes [52, 50])], [52, 50], [], 1⟩ ∧
    read ⟨[(PyVal.bytes [67, 77, 68], PyVal.bytes [52, 50])], [52, 50], [], 1⟩
      = .ok ([52, 50],
        ⟨[(PyVal.bytes [67, 77, 68], PyVal.bytes [52, 50])], [], [], 1⟩) ∧
    read ⟨[(PyVal.bytes [67, 77, 68], PyVal.bytes [52, 50])], [], [], 1⟩
      = .error (.sequenceExhausted,
        ⟨[(PyVal.bytes [67, 77, 68], PyVal.bytes [52, 50])], [], [], 1⟩) := by
  refine ⟨?_, ?_, rfl, rfl, rfl⟩
  · intro s st2
    constructor
    · intro h
      unfold read at h
      split at h
      · exact absurd h (by simp)
      · rename_i b1 st1 h1
        split at h
        · exact absurd h (by simp)
        · rename_i b2 st2' h2
          split at h
          · exact absurd h (by simp)
          · rename_i s' h3
            simp only [Except.ok.injEq, Prod.mk.injEq] at h
            exact ⟨b1, st1, b2, h1, h.2 ▸ h2, h.1 ▸ h3⟩
    · rintro ⟨b1, st1, b2, h1, h2, h3⟩
      simp [read, h1, h2, h3]
  · intro b1 st1 b2 st2 h1 h2 h3
    simp [read, h1, h2, h3]

/-- C6 witness: invalid UTF-8 in the buffer makes read() fail with a
decoding error. -/
theorem c6_witness :
    read ⟨[], [255, 254], [], 0⟩ = .error (.decodingError, ⟨[], [], [], 0⟩) :=
  (c6_read ⟨[], [255, 254], [], 0⟩).2.1 [255] ⟨[], [254], [], 0⟩ [254]
    ⟨[], [], [], 0⟩ rfl rfl rfl

/-- C7: for count ≥ 0 and non-empty pendingRead, readBytes(count) returns
the first min(count, length) bytes of pendingRead and removes exactly
those bytes, draining the buffer in FIFO byte order; in particular, with
step `(b"CMD", b"ABCDE")`, after write("CMD") three calls readBytes(2)
return `b"AB"`, `b"CD"`, `b"E"` in order, and a fourth call with the
sequence exhausted fails with SequenceExhausted. -/
theorem c7_fifo_drain (st : State) (count : Int)
    (hc : 0 ≤ count) (hbuf : st.read_buffer ≠ []) :
    read_bytes st count = .ok (st.read_buffer.take count.toNat,
      { st with read_buffer := st.read_buffer.drop count.toNat }) ∧
    (st.read_buffer.take count.toNat).length
      = min count.toNat st.read_buffer.length ∧
    st.read_buffer.take count.toNat ++ st.read_buffer.drop count.toNat
      = st.read_buffer ∧
    write ⟨[(PyVal.bytes [67, 77, 68], PyVal.bytes [65, 66, 67, 68, 69])],
        [], [], 0⟩ (PyVal.str [67, 77, 68])
      = .ok ⟨[(PyVal.bytes [67, 77, 68], PyVal.bytes [65, 66, 67, 68, 69])],
        [65, 66, 67, 68, 69], [], 1⟩ ∧
    read_bytes ⟨[(PyVal.bytes [67, 77, 68], PyVal.bytes [65, 66, 67, 68, 69])],
        [65, 66, 67, 68, 69], [], 1⟩ 2
      = .ok ([65, 66],
        ⟨[(PyVal.bytes [67, 77, 68], PyVal.bytes [65, 66, 67, 68, 69])],
          [67, 68, 69], [], 1⟩) ∧
    read_bytes ⟨[(PyVal.bytes [67, 77, 68], PyVal.bytes [65, 66, 67, 68, 69])],
        [67, 68, 69], [], 1⟩ 2
      = .ok ([67, 68],
        ⟨[(PyVal.bytes [67, 77, 68], PyVal.bytes [65, 66, 67, 68, 69])],
          [69], [], 1⟩) ∧
    read_bytes ⟨[(PyVal.bytes [67, 77, 68], PyVal.bytes [65, 66, 67, 68, 69])],
        [69], [], 1⟩ 2
      = .ok ([69],
        ⟨[(PyVal.bytes [67, 77, 68], PyVal.bytes [65, 66, 67, 68, 69])],
          [], [], 1⟩) ∧
    read_bytes ⟨[(PyVal.bytes [67, 77, 68], PyVal.bytes [65, 66, 67, 68, 69])],
        [], [], 1⟩ 2
      = .error (.sequenceExhausted,
        ⟨[(PyVal.bytes [67, 77, 68], PyVal.bytes [65, 66, 67, 68, 69])],
          [], [], 1⟩) := by
  refine ⟨?_, by simp, List.take_append_drop _ _, rfl, rfl, rfl, rfl, rfl⟩
  simp [read_bytes, hbuf, pySliceTo, pySliceFrom, hc]

/-- C7 witness: the FIFO slice at count = 2 on buffer `b"ABC"`. -/
theorem c7_witness :
    read_bytes ⟨[], [65, 66, 67], [], 0⟩ 2 = .ok ([65, 66], ⟨[], [67], [], 0⟩) := by
  have h := (c7_fifo_drain ⟨[], [65, 66, 67], [], 0⟩ 2 (by decide) (by decide)).1
  simpa using h

/-- C10 (implicit): writeBytes is not atomic on failure — when it raises
SequenceExhausted (exhausted lookup) or UnreadResponsePending (guard on a
completed match), the content has already been appended to pendingWrite
and remains there in the post-error state, while pendingRead and the
cursor are unchanged. -/
theorem c10_nonatomic (st st' : State) (content : List Nat)
    (h : write_bytes st content = .error (.sequenceExhausted, st') ∨
         ∃ rb, write_bytes st content = .error (.unreadResponsePending rb, st')) :
    st'.write_buffer = st.write_buffer ++ content ∧
    st'.read_buffer = st.read_buffer ∧ st'.index = st.index := by
  rcases h with h | ⟨rb, h⟩ <;>
  · unfold write_bytes write_bytes_rest at h
    split at h
    · simp only [Except.error.injEq, Prod.mk.injEq] at h
      rw [← h.2]
      exact ⟨rfl, rfl, rfl⟩
    · split at h
      · rename_i e0 he0
        rcases to_bytes_error_shape _ _ he0 with h1 | ⟨ty, h1⟩ <;>
          simp [h1] at h
      · split at h
        · split at h
          · split at h
            · rename_i e0 he0
              rcases to_bytes_error_shape _ _ he0 with h1 | ⟨ty, h1⟩ <;>
                simp [h1] at h
            · simp at h
          · simp only [Except.error.injEq, Prod.mk.injEq] at h
            rw [← h.2]
            exact ⟨rfl, rfl, rfl⟩
        · simp at h

/-- C10 witness: an exhausted-sequence writeBytes leaves the appended
bytes in pendingWrite with pendingRead and cursor unchanged. -/
theorem c10_witness :
    (⟨[], [], [1, 2], 0⟩ : State).write_buffer
        = (⟨[], [], [], 0⟩ : State).write_buffer ++ [1, 2] ∧
    (⟨[], [], [1, 2], 0⟩ : State).read_buffer
        = (⟨[], [], [], 0⟩ : State).read_buffer ∧
    (⟨[], [], [1, 2], 0⟩ : State).index = (⟨[], [], [], 0⟩ : State).index :=
  c10_nonatomic ⟨[], [], [], 0⟩ ⟨[], [], [1, 2], 0⟩ [1, 2] (Or.inl rfl)

end Protocol
